import Mathlib

/-!
Verification of the face-snapping geometry engine of the fixture-placement
repository (`PythonPartScripts/FixturePlacement/SnapToSolid.py` and
`PythonPartScripts/FixturePlacement/OpeningUtil.py`).

The Python source is a thin layer over the host CAD system's geometry
library (`NemAll_Python_Geometry`).  The embedding below models

* 3D points and vectors as real-valued triples (`Vec3`), 2D ones as pairs
  (`Vec2`); the source's floating-point scalars are modelled as real numbers;
* the host's `Matrix3D` as an affine transform (a 3x3 linear block stored as
  three row vectors, plus a translation row), applied to row vectors on the
  left (`v * M`), matching the host convention in which
  `pre_rotate * align_with_nv * translate_to_global` applies `pre_rotate`
  first and the translation last;
* the host's `Matrix3D.SetRotation(v1, v2)` as the minimal rotation taking
  the direction of `v1` onto the direction of `v2` (Rodrigues construction),
  which is how the spec describes it ("compute the rotation that maps local
  +Z axis onto `normal` reversed in sign - and this is the one applied");
* the host's `Matrix3D.Rotation(z_axis, angle)` as composition with the
  standard rotation about the world Z axis;
* a polyhedron, as consumed by `_find_nearest_face`, as the list of its
  faces, each face carrying the data the search reads: the face normal
  (`GetNormalVectorOfFace`) and one vertex on the face (first vertex of the
  face's first edge).

Python's `ValueError` exceptions of `_find_nearest_face` are modelled with
an `Except` result; the two distinct raise sites (explicit "too complex"
raise, and `min([])` on a polyhedron without faces) are kept distinct.
-/

/-- A 3D point or vector: the source uses `Point3D`/`Vector3D` triples of
floats, modelled as real triples. -/
@[ext]
structure Vec3 where
  x : ℝ
  y : ℝ
  z : ℝ

/-- A 2D point or vector (`Point2D`/`Vector2D`). -/
@[ext]
structure Vec2 where
  x : ℝ
  y : ℝ

instance : Zero Vec3 := ⟨⟨0, 0, 0⟩⟩
instance : Add Vec3 := ⟨fun a b => ⟨a.x + b.x, a.y + b.y, a.z + b.z⟩⟩
instance : Sub Vec3 := ⟨fun a b => ⟨a.x - b.x, a.y - b.y, a.z - b.z⟩⟩
instance : Neg Vec3 := ⟨fun a => ⟨-a.x, -a.y, -a.z⟩⟩
instance : SMul ℝ Vec3 := ⟨fun c a => ⟨c * a.x, c * a.y, c * a.z⟩⟩

instance : Zero Vec2 := ⟨⟨0, 0⟩⟩
instance : Add Vec2 := ⟨fun a b => ⟨a.x + b.x, a.y + b.y⟩⟩
instance : Sub Vec2 := ⟨fun a b => ⟨a.x - b.x, a.y - b.y⟩⟩
instance : SMul ℝ Vec2 := ⟨fun c a => ⟨c * a.x, c * a.y⟩⟩

@[simp] theorem Vec3.zero_x : (0 : Vec3).x = 0 := rfl
@[simp] theorem Vec3.zero_y : (0 : Vec3).y = 0 := rfl
@[simp] theorem Vec3.zero_z : (0 : Vec3).z = 0 := rfl
@[simp] theorem Vec3.add_x (a b : Vec3) : (a + b).x = a.x + b.x := rfl
@[simp] theorem Vec3.add_y (a b : Vec3) : (a + b).y = a.y + b.y := rfl
@[simp] theorem Vec3.add_z (a b : Vec3) : (a + b).z = a.z + b.z := rfl
@[simp] theorem Vec3.sub_x (a b : Vec3) : (a - b).x = a.x - b.x := rfl
@[simp] theorem Vec3.sub_y (a b : Vec3) : (a - b).y = a.y - b.y := rfl
@[simp] theorem Vec3.sub_z (a b : Vec3) : (a - b).z = a.z - b.z := rfl
@[simp] theorem Vec3.neg_x (a : Vec3) : (-a).x = -a.x := rfl
@[simp] theorem Vec3.neg_y (a : Vec3) : (-a).y = -a.y := rfl
@[simp] theorem Vec3.neg_z (a : Vec3) : (-a).z = -a.z := rfl
@[simp] theorem Vec3.smul_x (c : ℝ) (a : Vec3) : (c • a).x = c * a.x := rfl
@[simp] theorem Vec3.smul_y (c : ℝ) (a : Vec3) : (c • a).y = c * a.y := rfl
@[simp] theorem Vec3.smul_z (c : ℝ) (a : Vec3) : (c • a).z = c * a.z := rfl

@[simp] theorem Vec2.zero_x2 : (0 : Vec2).x = 0 := rfl
@[simp] theorem Vec2.zero_y2 : (0 : Vec2).y = 0 := rfl
@[simp] theorem Vec2.add_x2 (a b : Vec2) : (a + b).x = a.x + b.x := rfl
@[simp] theorem Vec2.add_y2 (a b : Vec2) : (a + b).y = a.y + b.y := rfl
@[simp] theorem Vec2.sub_x2 (a b : Vec2) : (a - b).x = a.x - b.x := rfl
@[simp] theorem Vec2.sub_y2 (a b : Vec2) : (a - b).y = a.y - b.y := rfl
@[simp] theorem Vec2.smul_x2 (c : ℝ) (a : Vec2) : (c • a).x = c * a.x := rfl
@[simp] theorem Vec2.smul_y2 (c : ℝ) (a : Vec2) : (c • a).y = c * a.y := rfl

noncomputable instance : DecidableEq Vec3 := Classical.decEq Vec3

/-- Dot product of two 3D vectors (`Vector3D.DotProduct`). -/
def dot3 (a b : Vec3) : ℝ := a.x * b.x + a.y * b.y + a.z * b.z

/-- Cross product of two 3D vectors. -/
def cross3 (a b : Vec3) : Vec3 :=
  ⟨a.y * b.z - a.z * b.y, a.z * b.x - a.x * b.z, a.x * b.y - a.y * b.x⟩

/-- The host's `To2D`: drop the Z coordinate. -/
def to2D (v : Vec3) : Vec2 := ⟨v.x, v.y⟩

/-- The host's `Vector2D.Orthogonal()`: the 90-degree rotation of a
2D vector. -/
def Vec2.orthogonal (v : Vec2) : Vec2 := ⟨-v.y, v.x⟩

/-- Dot product of two 2D vectors. -/
def dot2 (a b : Vec2) : ℝ := a.x * b.x + a.y * b.y

/-- Normalize a 3D vector: `v / |v|`.  On the zero vector the real-number
convention `1 / 0 = 0` makes the result the zero vector. -/
noncomputable def normalizeVec (v : Vec3) : Vec3 :=
  (1 / Real.sqrt (dot3 v v)) • v

/-- The host's 4x4 `Matrix3D`, modelled as an affine transform: three rows
of the linear (rotation) block plus a translation row.  It acts on row
vectors: a `Vector3D` is transformed by the linear block only, a `Point3D`
additionally receives the translation. -/
@[ext]
structure Matrix3D where
  r1 : Vec3
  r2 : Vec3
  r3 : Vec3
  t : Vec3

/-- Image of a direction vector under the linear (rotation) block of a
matrix, row-vector convention: the host's `Vector3D * Matrix3D`. -/
def vecMul (v : Vec3) (m : Matrix3D) : Vec3 :=
  v.x • m.r1 + v.y • m.r2 + v.z • m.r3

/-- Matrix composition `a * b`, applying `a` first (row-vector
convention). -/
def Matrix3D.mul (a b : Matrix3D) : Matrix3D :=
  ⟨vecMul a.r1 b, vecMul a.r2 b, vecMul a.r3 b, vecMul a.t b + b.t⟩

instance : Mul Matrix3D := ⟨Matrix3D.mul⟩

theorem Matrix3D.mul_def (a b : Matrix3D) :
    a * b = ⟨vecMul a.r1 b, vecMul a.r2 b, vecMul a.r3 b, vecMul a.t b + b.t⟩ :=
  rfl

/-- The identity matrix, `AllplanGeo.Matrix3D()`. -/
def Matrix3D.identity : Matrix3D :=
  ⟨⟨1, 0, 0⟩, ⟨0, 1, 0⟩, ⟨0, 0, 1⟩, 0⟩

/-- An identity matrix whose translation row was set with
`SetTranslation(p)`. -/
def Matrix3D.translationMatrix (p : Vec3) : Matrix3D :=
  ⟨⟨1, 0, 0⟩, ⟨0, 1, 0⟩, ⟨0, 0, 1⟩, p⟩

/-- The literal projection matrix of `_calc_placement_matrix` step 1:
`Matrix3D(1,0,0,0, 0,1,0,0, 0,0,0,0, 0,0,0,1)`, zeroing the Z coordinate. -/
def projOnXY : Matrix3D :=
  ⟨⟨1, 0, 0⟩, ⟨0, 1, 0⟩, ⟨0, 0, 0⟩, 0⟩

/-- Rotation about the world Z axis (the host's
`Matrix3D.Rotation(Line3D(0,0,0, 0,0,1), angle)` factor), an `Angle` being
a scalar in radians. -/
noncomputable def rotZ (angle : ℝ) : Matrix3D :=
  ⟨⟨Real.cos angle, Real.sin angle, 0⟩,
   ⟨-Real.sin angle, Real.cos angle, 0⟩,
   ⟨0, 0, 1⟩, 0⟩

/-- The host's `Matrix3D.SetRotation(a, b)`: the minimal rotation taking the
direction of `a` onto the direction of `b`, built by the Rodrigues formula
on the normalized inputs (`u`, `w`): with `c = u . w`, `v = u x w`,
`s = 1 / (1 + c)`, the row-vector matrix is `I - K + s * K^2` for the
column cross-product matrix `K` of `v`, so that `u * M = w`.  Degenerate
inputs (a zero vector, or exactly antipodal directions, where `s` divides
by zero) follow the real-number junk conventions of the formula; the host
library does not document them and the source never guards against them. -/
noncomputable def setRotation (a b : Vec3) : Matrix3D :=
  let u := normalizeVec a
  let w := normalizeVec b
  let c := dot3 u w
  let v := cross3 u w
  let n := v.x ^ 2 + v.y ^ 2 + v.z ^ 2
  let s := 1 / (1 + c)
  ⟨⟨1 + s * (v.x ^ 2 - n), v.z + s * (v.x * v.y), -v.y + s * (v.x * v.z)⟩,
   ⟨-v.z + s * (v.x * v.y), 1 + s * (v.y ^ 2 - n), v.x + s * (v.y * v.z)⟩,
   ⟨v.y + s * (v.x * v.z), -v.x + s * (v.y * v.z), 1 + s * (v.z ^ 2 - n)⟩,
   0⟩

/-- `SnapToSolid._calc_placement_matrix(normal_vec, placement_pnt,
z_rotation)`: the placement matrix built from

1. the rotation aligning the local X axis with the XY-plane projection of
   the normal vector (skipped when that projection is the zero vector),
2. composed with the additional rotation about the local Z axis by
   `z_rotation`,
3. composed with the rotation `SetRotation((0,0,1), normal_vec * -1)`,
4. composed with the translation to `placement_pnt`. -/
noncomputable def calcPlacementMatrix (normalVec : Vec3) (placementPnt : Vec3)
    (zRotation : ℝ) : Matrix3D :=
  let normalVecXY := vecMul normalVec projOnXY
  let preRotate :=
    (if normalVecXY = 0 then Matrix3D.identity
     else setRotation ⟨1, 0, 0⟩ normalVecXY) * rotZ zRotation
  let alignWithNv := setRotation ⟨0, 0, 1⟩ ((-1 : ℝ) • normalVec)
  let translateToGlobal := Matrix3D.translationMatrix placementPnt
  preRotate * alignWithNv * translateToGlobal

/-- One polyhedron face, carrying the data `_find_nearest_face` reads: the
face's normal vector (`GetNormalVectorOfFace`) and one vertex on the face
(the first vertex of the face's first edge, via `GetFace(i).GetEdge(0)` and
`GetEdgeVertices`). -/
structure Face where
  normal : Vec3
  vertex : Vec3

/-- Default face used for total indexing into a face list. -/
def defaultFace : Face := ⟨⟨0, 0, 1⟩, ⟨0, 0, 0⟩⟩

/-- The two `ValueError` raise sites of `_find_nearest_face`: the explicit
"polyhedron is too complex" raise, and the `min(distances)` call on an
empty list (a polyhedron with zero faces). -/
inductive SnapErr where
  | tooComplex
  | emptyDistances
deriving DecidableEq

/-- Python's `min` on a list: `none` on the empty list (where the Python
built-in raises `ValueError`), otherwise the left fold of binary `min`
over the remaining elements. -/
noncomputable def listMin : List ℝ → Option ℝ
  | [] => none
  | a :: as => some (as.foldl min a)

/-- Python's `list.index(v)`: the index of the first element equal to
`v`. -/
noncomputable def firstIndexOf (v : ℝ) : List ℝ → ℕ
  | [] => 0
  | a :: as => if a = v then 0 else firstIndexOf v as + 1

/-- Unsigned distance from point `pnt` to the supporting plane of face `f`:
`abs(face_nv.DotProduct(Vector3D(point - face_vertex)))`. -/
noncomputable def planeDistance (f : Face) (pnt : Vec3) : ℝ :=
  |dot3 f.normal (pnt - f.vertex)|

/-- `SnapToSolid._find_nearest_face(polyhedron, point)`: raises when the
face count exceeds `2 ** 14`; otherwise scans all faces, collecting the
unsigned supporting-plane distances, and returns the first index attaining
the minimum distance together with that minimum (raising on a polyhedron
without faces, where `min([])` fails). -/
noncomputable def findNearestFace (polyhedron : List Face) (pnt : Vec3) :
    Except SnapErr (ℕ × ℝ) :=
  if polyhedron.length > 2 ^ 14 then .error .tooComplex
  else
    let distances := polyhedron.map (fun f => planeDistance f pnt)
    match listMin distances with
    | none => .error .emptyDistances
    | some m => .ok (firstIndexOf m distances, m)

/-- The mutable state of a `SnapToSolid` instance that the snapping logic
reads and writes: the cached reference polyhedron (`_polyhedron`, initially
the empty `Polyhedron3D()`) and the last known face normal (`_normal_vec`,
initially `(0, 0, 1)`).  The host element-adapter bookkeeping
(`_ref_element`, highlighting) carries no geometric content and is not
modelled. -/
structure SnapState where
  polyhedron : List Face
  normalVec : Vec3

/-- `SnapToSolid.snap_by_point(input_pnt, rotation, ..., tolerance)`, after
the optional host element-selection prelude (which only swaps
`_polyhedron`; a caller-supplied `SnapState` stands for its outcome).

The source guards the snap with `_polyhedron != _calc_placement_matrix(...)`,
a comparison between a polyhedron and a matrix, values of different types
that are never equal - so the nearest-face search is always attempted.  On
a `ValueError` from `_find_nearest_face` the cached polyhedron is reset to
the empty one and the unsnapped placement matrix is returned; otherwise the
last known normal is overwritten by the nearest face's normal exactly when
the distance is within `tolerance`, and the placement matrix is built from
the (possibly updated) normal and the raw input point. -/
noncomputable def snapByPoint (s : SnapState) (inputPnt : Vec3)
    (rotation tolerance : ℝ) : Matrix3D × SnapState :=
  match findNearestFace s.polyhedron inputPnt with
  | .error _ =>
      (calcPlacementMatrix s.normalVec inputPnt rotation,
       { s with polyhedron := [] })
  | .ok (nearestFaceIdx, distanceToFace) =>
      let s2 :=
        if distanceToFace ≤ tolerance then
          { s with normalVec := (s.polyhedron.getD nearestFaceIdx defaultFace).normal }
        else s
      (calcPlacementMatrix s2.normalVec inputPnt rotation, s2)

/-- `SnapToSolid.snap_by_ray(input_pnt, rotation, ...)`.  The host viewport
interaction is summarized by its outcomes: `elementDetected` is the result
of `CoordinateInput.SelectElement`, and `faceHit` is the result of the
host's `FaceSelectService.SelectPolyhedronFace` ray test, carrying the hit
face's normal (`FaceNv`) and the intersection point - it is only consulted
when an element was detected.  On a hit the last known normal is
overwritten and the placement point is the intersection point; otherwise
the previous normal is kept and the placement point is the raw input
point. -/
noncomputable def snapByRay (s : SnapState) (inputPnt : Vec3) (rotation : ℝ)
    (elementDetected : Bool) (faceHit : Option (Vec3 × Vec3)) :
    Matrix3D × SnapState :=
  if elementDetected = false then
    (calcPlacementMatrix s.normalVec inputPnt rotation, s)
  else
    match faceHit with
    | some (faceNv, intersectionPnt) =>
        (calcPlacementMatrix faceNv intersectionPnt rotation,
         { s with normalVec := faceNv })
    | none => (calcPlacementMatrix s.normalVec inputPnt rotation, s)

/-- The data of the vertical rectangular opening element built by
`OpeningUtil.create_opening_in_wall`: the 2D footprint segment endpoints
and the absolute bottom/top elevations, plus the pass-through depth. -/
structure GeneralOpening where
  startPoint : Vec2
  endPoint : Vec2
  depth : ℝ
  bottomOffset : ℝ
  topOffset : ℝ

/-- The two `ValueError` raise sites of `create_opening_in_wall`: a host
element that is not a wall tier, and a placement matrix that is not
vertical. -/
inductive OpeningErr where
  | invalidElementKind
  | notVertical
deriving DecidableEq

/-- The host's `Comparison.Equal(a, b, eps)`: tolerance-based equality
`|a - b| < eps`. -/
def cmpEqual (a b eps : ℝ) : Prop := |a - b| < eps

noncomputable instance (a b eps : ℝ) : Decidable (cmpEqual a b eps) :=
  Classical.dec _

/-- `OpeningUtil.create_opening_in_wall(wall_element, placement_matrix,
width, depth, height)`; `isWallTier` is the outcome of the host element-type
check `GetElementAdapterType().GetGuid() != WallTier_TypeUUID`.  The image
of `(0,0,1)` under the placement matrix must have a Z component equal to
zero within `1e-11`, otherwise the opening is rejected as not vertical; the
footprint runs from `translation.To2D - adj_vec * width/2` to
`translation.To2D + adj_vec * width/2` along the orthogonal `adj_vec` of
the 2D-projected normal, and the bottom/top elevations are the
translation's Z component minus/plus `height/2`. -/
noncomputable def createOpeningInWall (isWallTier : Bool)
    (placementMatrix : Matrix3D) (width depth height : ℝ) :
    Except OpeningErr GeneralOpening :=
  if isWallTier = false then .error .invalidElementKind
  else
    let normVec := vecMul ⟨0, 0, 1⟩ placementMatrix
    if ¬ cmpEqual normVec.z 0 (1 / 10 ^ 11) then .error .notVertical
    else
      let adjVec := (to2D normVec).orthogonal
      let translation := placementMatrix.t
      .ok { startPoint := to2D translation - (width / 2) • adjVec
            endPoint := to2D translation + (width / 2) • adjVec
            depth := depth
            bottomOffset := translation.z - height / 2
            topOffset := translation.z + height / 2 }

theorem vecMul_zero_left (m : Matrix3D) : vecMul 0 m = 0 := by
  refine Vec3.ext ?_ ?_ ?_ <;> simp [vecMul]

theorem vecMul_z_eq_r3 (m : Matrix3D) : vecMul ⟨0, 0, 1⟩ m = m.r3 := by
  refine Vec3.ext ?_ ?_ ?_ <;> simp [vecMul]

theorem vecMul_mul (v : Vec3) (a b : Matrix3D) :
    vecMul v (a * b) = vecMul (vecMul v a) b := by
  refine Vec3.ext ?_ ?_ ?_ <;> simp [vecMul, Matrix3D.mul_def] <;> ring

theorem vecMul_translationMatrix (v p : Vec3) :
    vecMul v (Matrix3D.translationMatrix p) = v := by
  refine Vec3.ext ?_ ?_ ?_ <;> simp [vecMul, Matrix3D.translationMatrix]

theorem vecMul_projOnXY_z (v : Vec3) : (vecMul v projOnXY).z = 0 := by
  simp [vecMul, projOnXY]

theorem rotZ_r3 (angle : ℝ) : (rotZ angle).r3 = ⟨0, 0, 1⟩ := rfl

theorem identity_r3 : Matrix3D.identity.r3 = ⟨0, 0, 1⟩ := rfl

theorem Matrix3D.t_mul (a b : Matrix3D) : (a * b).t = vecMul a.t b + b.t := rfl

theorem Matrix3D.r3_mul (a b : Matrix3D) : (a * b).r3 = vecMul a.r3 b := rfl

theorem setRotation_t (a b : Vec3) : (setRotation a b).t = 0 := rfl

theorem rotZ_t (angle : ℝ) : (rotZ angle).t = 0 := rfl

theorem translationMatrix_t (p : Vec3) : (Matrix3D.translationMatrix p).t = p := rfl

theorem vec3_zero_add (v : Vec3) : (0 : Vec3) + v = v := by
  refine Vec3.ext ?_ ?_ ?_ <;> simp

/-- Unfolding of `_calc_placement_matrix` into its four factors. -/
theorem calcPlacementMatrix_eq (normalVec placementPnt : Vec3) (zRotation : ℝ) :
    calcPlacementMatrix normalVec placementPnt zRotation =
      (if vecMul normalVec projOnXY = 0 then Matrix3D.identity
       else setRotation ⟨1, 0, 0⟩ (vecMul normalVec projOnXY)) * rotZ zRotation
        * setRotation ⟨0, 0, 1⟩ ((-1 : ℝ) • normalVec)
        * Matrix3D.translationMatrix placementPnt := rfl

/-- The translation row of a placement matrix is exactly the placement
point: the rotation factors carry no translation. -/
theorem calcPlacementMatrix_t (normalVec placementPnt : Vec3) (zRotation : ℝ) :
    (calcPlacementMatrix normalVec placementPnt zRotation).t = placementPnt := by
  rw [calcPlacementMatrix_eq]
  set B := (if vecMul normalVec projOnXY = 0 then Matrix3D.identity
      else setRotation ⟨1, 0, 0⟩ (vecMul normalVec projOnXY)) with hB
  have hBt : B.t = 0 := by rw [hB]; split <;> rfl
  simp only [Matrix3D.t_mul, hBt, rotZ_t, setRotation_t, translationMatrix_t,
    vecMul_zero_left, vec3_zero_add]

theorem setRotation_x_r3 (a : Vec3) (ha : a.z = 0) :
    (setRotation ⟨1, 0, 0⟩ a).r3 = ⟨0, 0, 1⟩ := by
  refine Vec3.ext ?_ ?_ ?_ <;> simp [setRotation, normalizeVec, cross3, dot3, ha]

theorem setRotation_z_r3 (b : Vec3)
    (hu : dot3 (normalizeVec b) (normalizeVec b) = 1)
    (hz : 1 + (normalizeVec b).z ≠ 0) :
    (setRotation ⟨0, 0, 1⟩ b).r3 = normalizeVec b := by
  have hzaxis : normalizeVec ⟨0, 0, 1⟩ = ⟨0, 0, 1⟩ := by
    refine Vec3.ext ?_ ?_ ?_ <;>
      simp [normalizeVec, dot3, Real.sqrt_one]
  set w := normalizeVec b with hw
  have hu2 : w.x * w.x + w.y * w.y + w.z * w.z = 1 := hu
  have hz2 : 1 + w.z ≠ 0 := hz
  refine Vec3.ext ?_ ?_ ?_
  · simp [setRotation, hzaxis, ← hw, cross3, dot3]
  · simp [setRotation, hzaxis, ← hw, cross3, dot3]
  · simp [setRotation, hzaxis, ← hw, cross3, dot3]
    field_simp
    nlinarith [hu2]

theorem dot3_self_nonneg (v : Vec3) : 0 ≤ dot3 v v := by
  simp only [dot3]
  nlinarith [sq_nonneg v.x, sq_nonneg v.y, sq_nonneg v.z]

theorem dot3_self_pos (v : Vec3) (hv : v ≠ 0) : 0 < dot3 v v := by
  rcases lt_or_eq_of_le (dot3_self_nonneg v) with h | h
  · exact h
  · exfalso
    apply hv
    have hx : v.x = 0 := by
      have := h.symm
      simp only [dot3] at this
      nlinarith [sq_nonneg v.x, sq_nonneg v.y, sq_nonneg v.z]
    have hy : v.y = 0 := by
      have := h.symm
      simp only [dot3] at this
      nlinarith [sq_nonneg v.x, sq_nonneg v.y, sq_nonneg v.z]
    have hz : v.z = 0 := by
      have := h.symm
      simp only [dot3] at this
      nlinarith [sq_nonneg v.x, sq_nonneg v.y, sq_nonneg v.z]
    exact Vec3.ext hx hy hz

/-- The normalization of a non-zero vector is a unit vector. -/
theorem normalizeVec_unit (v : Vec3) (hv : v ≠ 0) :
    dot3 (normalizeVec v) (normalizeVec v) = 1 := by
  have hq : 0 < dot3 v v := dot3_self_pos v hv
  have hs : 0 < Real.sqrt (dot3 v v) := Real.sqrt_pos.mpr hq
  have hss : Real.sqrt (dot3 v v) * Real.sqrt (dot3 v v) = dot3 v v :=
    Real.mul_self_sqrt hq.le
  simp only [normalizeVec, dot3] at *
  field_simp

theorem normalizeVec_neg_one_smul (v : Vec3) :
    normalizeVec ((-1 : ℝ) • v) = -(normalizeVec v) := by
  have harg : dot3 ((-1 : ℝ) • v) ((-1 : ℝ) • v) = dot3 v v := by
    simp only [dot3, Vec3.smul_x, Vec3.smul_y, Vec3.smul_z]
    ring
  rw [normalizeVec, normalizeVec, harg]
  refine Vec3.ext ?_ ?_ ?_ <;> simp

theorem dot3_neg_neg (v : Vec3) : dot3 (-v) (-v) = dot3 v v := by
  simp only [dot3, Vec3.neg_x, Vec3.neg_y, Vec3.neg_z]
  ring

/-- The image of the local +Z axis under the rotation block of a placement
matrix: the two pre-rotations fix the Z axis, and the aligning rotation
takes it to the direction of `normal_vec * -1`. -/
theorem zImage_calcPlacementMatrix (n p : Vec3) (zRotation : ℝ) (hn : n ≠ 0)
    (hz : (normalizeVec n).z ≠ 1) :
    vecMul ⟨0, 0, 1⟩ (calcPlacementMatrix n p zRotation) = -(normalizeVec n) := by
  rw [calcPlacementMatrix_eq, vecMul_mul, vecMul_mul, vecMul_mul]
  have hB : vecMul ⟨0, 0, 1⟩ (if vecMul n projOnXY = 0 then Matrix3D.identity
      else setRotation ⟨1, 0, 0⟩ (vecMul n projOnXY)) = ⟨0, 0, 1⟩ := by
    rw [vecMul_z_eq_r3]
    split
    · exact identity_r3
    · exact setRotation_x_r3 _ (vecMul_projOnXY_z n)
  rw [hB, vecMul_z_eq_r3, rotZ_r3, vecMul_z_eq_r3]
  have hu : dot3 (normalizeVec ((-1 : ℝ) • n)) (normalizeVec ((-1 : ℝ) • n)) = 1 := by
    rw [normalizeVec_neg_one_smul, dot3_neg_neg]
    exact normalizeVec_unit n hn
  have hz2 : 1 + (normalizeVec ((-1 : ℝ) • n)).z ≠ 0 := by
    rw [normalizeVec_neg_one_smul]
    simp only [Vec3.neg_z]
    intro h
    apply hz
    linarith
  rw [setRotation_z_r3 _ hu hz2, normalizeVec_neg_one_smul,
    vecMul_translationMatrix]

theorem normalizeVec_xAxis : normalizeVec ⟨1, 0, 0⟩ = ⟨1, 0, 0⟩ := by
  refine Vec3.ext ?_ ?_ ?_ <;> simp [normalizeVec, dot3, Real.sqrt_one]

theorem xAxis_ne_zero : (⟨1, 0, 0⟩ : Vec3) ≠ 0 := by
  intro h
  have := congrArg Vec3.x h
  norm_num at this

/-- C1, counterexample: for the normal `(1,0,0)`, the placement point
`(0,0,0)` and twist `0`, the image of local +Z under the rotation block of
the built frame is `(-1,0,0)`, which differs from
`normalize((1,0,0)) = (1,0,0)` by 2 in the X component - far beyond 1e-9.
The claim as stated is therefore false. -/
theorem claim_C1_counterexample :
    ¬ (|(vecMul ⟨0, 0, 1⟩ (calcPlacementMatrix ⟨1, 0, 0⟩ ⟨0, 0, 0⟩ 0)).x
        - (normalizeVec ⟨1, 0, 0⟩).x| ≤ 1 / 10 ^ 9) := by
  have hz : (normalizeVec ⟨1, 0, 0⟩).z ≠ 1 := by
    rw [normalizeVec_xAxis]
    norm_num
  have himg := zImage_calcPlacementMatrix ⟨1, 0, 0⟩ ⟨0, 0, 0⟩ 0 xAxis_ne_zero hz
  rw [himg, normalizeVec_xAxis]
  norm_num

/-- C1 (amended): for every non-zero normal vector whose direction is not
exactly +Z (where the antipodal `SetRotation((0,0,1), -normal)`
construction degenerates), every placement point and every twist angle,
the image of the local +Z axis under the rotation block of the transform
returned by `_calc_placement_matrix` equals the NEGATION of
`normalize(normal)` (exactly, hence within any tolerance): the applied
rotation takes +Z to `-normal`, so the built frame's Z axis is
anti-aligned with the given normal, not aligned with it. -/
theorem claim_C1_amended (n p : Vec3) (zRotation : ℝ) (hn : n ≠ 0)
    (hz : (normalizeVec n).z ≠ 1) :
    vecMul ⟨0, 0, 1⟩ (calcPlacementMatrix n p zRotation) = -(normalizeVec n) :=
  zImage_calcPlacementMatrix n p zRotation hn hz

/-- Witness for C1 (amended) at the concrete normal `(1,0,0)`, placement
point `(2,3,4)` and twist `0`. -/
theorem claim_C1_witness :
    (⟨1, 0, 0⟩ : Vec3) ≠ 0 ∧ (normalizeVec ⟨1, 0, 0⟩).z ≠ 1 ∧
    vecMul ⟨0, 0, 1⟩ (calcPlacementMatrix ⟨1, 0, 0⟩ ⟨2, 3, 4⟩ 0)
      = -(normalizeVec ⟨1, 0, 0⟩) := by
  have hz : (normalizeVec ⟨1, 0, 0⟩).z ≠ 1 := by
    rw [normalizeVec_xAxis]
    norm_num
  exact ⟨xAxis_ne_zero, hz, claim_C1_amended ⟨1, 0, 0⟩ ⟨2, 3, 4⟩ 0 xAxis_ne_zero hz⟩

theorem foldl_min_le_init (as : List ℝ) (a : ℝ) : as.foldl min a ≤ a := by
  induction as generalizing a with
  | nil => exact le_refl a
  | cons b bs ih =>
    calc bs.foldl min (min a b) ≤ min a b := ih _
    _ ≤ a := min_le_left _ _

theorem foldl_min_le_mem (as : List ℝ) (a x : ℝ) (hx : x ∈ as) :
    as.foldl min a ≤ x := by
  induction as generalizing a with
  | nil => cases hx
  | cons b bs ih =>
    rcases List.mem_cons.mp hx with rfl | h
    · calc bs.foldl min (min a x) ≤ min a x := foldl_min_le_init _ _
      _ ≤ x := min_le_right _ _
    · exact ih _ h

theorem foldl_min_mem (as : List ℝ) (a : ℝ) :
    as.foldl min a = a ∨ as.foldl min a ∈ as := by
  induction as generalizing a with
  | nil => exact Or.inl rfl
  | cons b bs ih =>
    rcases ih (min a b) with h | h
    · rcases min_choice a b with h2 | h2
      · exact Or.inl (by rw [List.foldl_cons, h, h2])
      · exact Or.inr (by rw [List.foldl_cons, h, h2]; exact List.mem_cons_self _ _)
    · exact Or.inr (List.mem_cons_of_mem _ (by rw [List.foldl_cons]; exact h))

theorem listMin_isSome (l : List ℝ) (h : l ≠ []) : ∃ m, listMin l = some m := by
  cases l with
  | nil => exact absurd rfl h
  | cons a as => exact ⟨as.foldl min a, rfl⟩

theorem listMin_mem {l : List ℝ} {m : ℝ} (h : listMin l = some m) : m ∈ l := by
  cases l with
  | nil => simp [listMin] at h
  | cons a as =>
    simp only [listMin, Option.some.injEq] at h
    rcases foldl_min_mem as a with h2 | h2
    · rw [← h, h2]; exact List.mem_cons_self _ _
    · rw [← h]; exact List.mem_cons_of_mem _ h2

theorem listMin_le {l : List ℝ} {m : ℝ} (h : listMin l = some m) :
    ∀ x ∈ l, m ≤ x := by
  cases l with
  | nil => simp [listMin] at h
  | cons a as =>
    simp only [listMin, Option.some.injEq] at h
    intro x hx
    rcases List.mem_cons.mp hx with rfl | h2
    · rw [← h]; exact foldl_min_le_init _ _
    · rw [← h]; exact foldl_min_le_mem _ _ _ h2

theorem firstIndexOf_lt_length {v : ℝ} {l : List ℝ} (h : v ∈ l) :
    firstIndexOf v l < l.length := by
  induction l with
  | nil => cases h
  | cons a as ih =>
    by_cases hav : a = v
    · simp [firstIndexOf, hav]
    · have h1 : v ∈ as := by
        rcases List.mem_cons.mp h with h1 | h1
        · exact absurd h1.symm hav
        · exact h1
      simp only [firstIndexOf, if_neg hav, List.length_cons]
      exact Nat.succ_lt_succ (ih h1)

theorem getD_firstIndexOf {v : ℝ} {l : List ℝ} (h : v ∈ l) (d : ℝ) :
    l.getD (firstIndexOf v l) d = v := by
  induction l with
  | nil => cases h
  | cons a as ih =>
    by_cases hav : a = v
    · simp [firstIndexOf, hav]
    · have h1 : v ∈ as := by
        rcases List.mem_cons.mp h with h1 | h1
        · exact absurd h1.symm hav
        · exact h1
      simp only [firstIndexOf, if_neg hav, List.getD_cons_succ]
      exact ih h1

theorem getD_before_firstIndexOf {v : ℝ} {l : List ℝ} (d : ℝ) :
    ∀ j, j < firstIndexOf v l → l.getD j d ≠ v := by
  induction l with
  | nil =>
    intro j hj
    simp [firstIndexOf] at hj
  | cons a as ih =>
    intro j hj
    by_cases hav : a = v
    · simp [firstIndexOf, hav] at hj
    · rw [firstIndexOf, if_neg hav] at hj
      cases j with
      | zero => simpa using hav
      | succ k =>
        have hk : k < firstIndexOf v as := Nat.lt_of_succ_lt_succ hj
        simpa using ih k hk

theorem getD_map_planeDistance (poly : List Face) (pnt : Vec3) :
    ∀ j, j < poly.length →
      (poly.map (fun f => planeDistance f pnt)).getD j 0
        = planeDistance (poly.getD j defaultFace) pnt := by
  induction poly with
  | nil =>
    intro j hj
    exact absurd hj (Nat.not_lt_zero j)
  | cons a as ih =>
    intro j hj
    cases j with
    | zero => simp
    | succ k =>
      simp only [List.map_cons, List.getD_cons_succ]
      exact ih k (Nat.lt_of_succ_lt_succ hj)

theorem findNearestFace_eq_ok (poly : List Face) (pnt : Vec3)
    (hlen : ¬ poly.length > 2 ^ 14) (m : ℝ)
    (hm : listMin (poly.map (fun f => planeDistance f pnt)) = some m) :
    findNearestFace poly pnt
      = .ok (firstIndexOf m (poly.map (fun f => planeDistance f pnt)), m) := by
  rw [findNearestFace, if_neg hlen]
  simp only [hm]

theorem findNearestFace_eq_err (poly : List Face) (pnt : Vec3)
    (hlen : ¬ poly.length > 2 ^ 14)
    (hm : listMin (poly.map (fun f => planeDistance f pnt)) = none) :
    findNearestFace poly pnt = .error .emptyDistances := by
  rw [findNearestFace, if_neg hlen]
  simp only [hm]

/-- C5: `_find_nearest_face` fails with the "too complex" error exactly
when the face count exceeds 16384 = 2^14; a mesh with exactly 16384 faces
is searched successfully (the other `ValueError`, from `min([])`, occurs
only on a mesh without faces and is a distinct failure). -/
theorem claim_C5 (poly : List Face) (pnt : Vec3) :
    (findNearestFace poly pnt = .error .tooComplex ↔ 16384 < poly.length)
    ∧ (poly.length = 16384 → ∃ r, findNearestFace poly pnt = .ok r) := by
  have h14 : (2 : ℕ) ^ 14 = 16384 := by norm_num
  constructor
  · constructor
    · intro h
      by_contra hlen
      rw [h14] at *
      rcases hm : listMin (poly.map (fun f => planeDistance f pnt)) with _ | m
      · rw [findNearestFace_eq_err poly pnt hlen hm] at h
        simp at h
      · rw [findNearestFace_eq_ok poly pnt hlen m hm] at h
        simp at h
    · intro hlen
      rw [findNearestFace, h14, if_pos hlen]
  · intro hlen
    have hlt : ¬ poly.length > 2 ^ 14 := by omega
    have hne : poly.map (fun f => planeDistance f pnt) ≠ [] := by
      intro hnil
      have := congrArg List.length hnil
      simp [hlen] at this
    obtain ⟨m, hm⟩ := listMin_isSome _ hne
    rw [findNearestFace_eq_ok poly pnt hlt m hm]
    exact ⟨_, rfl⟩

/-- Witness for C5: a concrete mesh with exactly 16384 faces is searched
successfully. -/
theorem claim_C5_witness :
    (List.replicate 16384 defaultFace).length = 16384
    ∧ ∃ r, findNearestFace (List.replicate 16384 defaultFace) ⟨0, 0, 0⟩ = .ok r := by
  have hlen : (List.replicate 16384 defaultFace).length = 16384 :=
    List.length_replicate 16384 defaultFace
  exact ⟨hlen, (claim_C5 (List.replicate 16384 defaultFace) ⟨0, 0, 0⟩).2 hlen⟩

/-- C6: on a mesh with between 1 and 16384 faces, `_find_nearest_face`
returns an index attaining the minimal unsigned supporting-plane distance
over all faces, together with that minimum; every earlier index has a
strictly larger distance (first-encountered tie-breaking in scan order). -/
theorem claim_C6 (poly : List Face) (pnt : Vec3) (h1 : 1 ≤ poly.length)
    (h2 : poly.length ≤ 16384) :
    ∃ i m, findNearestFace poly pnt = .ok (i, m) ∧ i < poly.length
      ∧ planeDistance (poly.getD i defaultFace) pnt = m
      ∧ (∀ j, j < poly.length → m ≤ planeDistance (poly.getD j defaultFace) pnt)
      ∧ (∀ j, j < i → m < planeDistance (poly.getD j defaultFace) pnt) := by
  have hlt : ¬ poly.length > 2 ^ 14 := by
    have : (2 : ℕ) ^ 14 = 16384 := by norm_num
    omega
  set ds := poly.map (fun f => planeDistance f pnt) with hds
  have hlends : ds.length = poly.length := List.length_map _ _
  have hne : ds ≠ [] := by
    intro hnil
    rw [hnil] at hlends
    simp at hlends
    omega
  obtain ⟨m, hm⟩ := listMin_isSome ds hne
  have hmem : m ∈ ds := listMin_mem hm
  have hle : ∀ x ∈ ds, m ≤ x := listMin_le hm
  have hilt : firstIndexOf m ds < poly.length := by
    rw [← hlends]
    exact firstIndexOf_lt_length hmem
  refine ⟨firstIndexOf m ds, m, ?_, hilt, ?_, ?_, ?_⟩
  · exact findNearestFace_eq_ok poly pnt hlt m hm
  · rw [← getD_map_planeDistance poly pnt _ hilt, ← hds]
    exact getD_firstIndexOf hmem 0
  · intro j hj
    rw [← getD_map_planeDistance poly pnt j hj, ← hds]
    apply hle
    have hjd : j < ds.length := by rw [hlends]; exact hj
    rw [List.getD_eq_getElem _ _ hjd]
    exact List.getElem_mem hjd
  · intro j hj
    have hjlen : j < poly.length := Nat.lt_trans hj hilt
    have hne2 : ds.getD j 0 ≠ m := getD_before_firstIndexOf 0 j hj
    have hge : m ≤ ds.getD j 0 := by
      apply hle
      have hjd : j < ds.length := by rw [hlends]; exact hjlen
      rw [List.getD_eq_getElem _ _ hjd]
      exact List.getElem_mem hjd
    have hgt := lt_of_le_of_ne hge (Ne.symm hne2)
    rw [← getD_map_planeDistance poly pnt j hjlen, ← hds]
    exact hgt

/-- Witness for C6 on a concrete one-face mesh. -/
theorem claim_C6_witness :
    1 ≤ (List.replicate 1 defaultFace).length
    ∧ (List.replicate 1 defaultFace).length ≤ 16384
    ∧ ∃ i m, findNearestFace (List.replicate 1 defaultFace) ⟨0, 0, 7⟩ = .ok (i, m)
        ∧ i < (List.replicate 1 defaultFace).length
        ∧ planeDistance ((List.replicate 1 defaultFace).getD i defaultFace) ⟨0, 0, 7⟩ = m
        ∧ (∀ j, j < (List.replicate 1 defaultFace).length
            → m ≤ planeDistance ((List.replicate 1 defaultFace).getD j defaultFace) ⟨0, 0, 7⟩)
        ∧ (∀ j, j < i
            → m < planeDistance ((List.replicate 1 defaultFace).getD j defaultFace) ⟨0, 0, 7⟩) := by
  refine ⟨by simp, by simp, ?_⟩
  exact claim_C6 (List.replicate 1 defaultFace) ⟨0, 0, 7⟩ (by simp) (by simp)

theorem snapByPoint_eq_err (s : SnapState) (inputPnt : Vec3)
    (rotation tolerance : ℝ) (e : SnapErr)
    (h : findNearestFace s.polyhedron inputPnt = .error e) :
    snapByPoint s inputPnt rotation tolerance
      = (calcPlacementMatrix s.normalVec inputPnt rotation,
         { s with polyhedron := [] }) := by
  simp only [snapByPoint, h]

theorem snapByPoint_eq_ok (s : SnapState) (inputPnt : Vec3)
    (rotation tolerance : ℝ) (i : ℕ) (d : ℝ)
    (h : findNearestFace s.polyhedron inputPnt = .ok (i, d)) :
    snapByPoint s inputPnt rotation tolerance
      = (calcPlacementMatrix
          (if d ≤ tolerance then (s.polyhedron.getD i defaultFace).normal
           else s.normalVec) inputPnt rotation,
         if d ≤ tolerance then
           { s with normalVec := (s.polyhedron.getD i defaultFace).normal }
         else s) := by
  simp only [snapByPoint, h]
  by_cases hd : d ≤ tolerance <;> simp [hd]

/-- C2: when the nearest-face search over the cached polyhedron succeeds
with index `i` and distance `d`, `snap_by_point` stores the face's normal
exactly when `d <= tolerance` (inclusive) and keeps the previous normal
otherwise, returns the frame built from the resulting normal and the raw
input point, and the returned frame's translation is exactly the input
point (the position is never projected onto the face). -/
theorem claim_C2 (s : SnapState) (inputPnt : Vec3) (rotation tolerance : ℝ)
    (i : ℕ) (d : ℝ)
    (hfind : findNearestFace s.polyhedron inputPnt = .ok (i, d)) :
    snapByPoint s inputPnt rotation tolerance
      = (calcPlacementMatrix
          (if d ≤ tolerance then (s.polyhedron.getD i defaultFace).normal
           else s.normalVec) inputPnt rotation,
         ⟨s.polyhedron,
          if d ≤ tolerance then (s.polyhedron.getD i defaultFace).normal
          else s.normalVec⟩)
    ∧ (snapByPoint s inputPnt rotation tolerance).1.t = inputPnt := by
  have h := snapByPoint_eq_ok s inputPnt rotation tolerance i d hfind
  constructor
  · rw [h]
    by_cases hd : d ≤ tolerance <;> simp [hd]
  · rw [h]
    exact calcPlacementMatrix_t _ _ _

/-- Witness for C2 on a concrete one-face polyhedron (face normal
`(0,0,1)` through the origin, query point `(0,0,5)`, tolerance 20): the
search succeeds at distance 5 and the stored normal is updated. -/
theorem claim_C2_witness :
    findNearestFace
        (SnapState.mk [⟨⟨0, 0, 1⟩, ⟨0, 0, 0⟩⟩] ⟨1, 0, 0⟩).polyhedron ⟨0, 0, 5⟩
      = .ok (0, 5)
    ∧ (snapByPoint ⟨[⟨⟨0, 0, 1⟩, ⟨0, 0, 0⟩⟩], ⟨1, 0, 0⟩⟩ ⟨0, 0, 5⟩ 0 20
        = (calcPlacementMatrix
            (if (5 : ℝ) ≤ 20 then
              (([⟨⟨0, 0, 1⟩, ⟨0, 0, 0⟩⟩] : List Face).getD 0 defaultFace).normal
             else ⟨1, 0, 0⟩) ⟨0, 0, 5⟩ 0,
           ⟨[⟨⟨0, 0, 1⟩, ⟨0, 0, 0⟩⟩],
            if (5 : ℝ) ≤ 20 then
              (([⟨⟨0, 0, 1⟩, ⟨0, 0, 0⟩⟩] : List Face).getD 0 defaultFace).normal
            else ⟨1, 0, 0⟩⟩))
    ∧ (snapByPoint ⟨[⟨⟨0, 0, 1⟩, ⟨0, 0, 0⟩⟩], ⟨1, 0, 0⟩⟩ ⟨0, 0, 5⟩ 0 20).1.t
        = ⟨0, 0, 5⟩ := by
  have hpd : planeDistance ⟨⟨0, 0, 1⟩, ⟨0, 0, 0⟩⟩ ⟨0, 0, 5⟩ = 5 := by
    norm_num [planeDistance, dot3]
  have hfind : findNearestFace ([⟨⟨0, 0, 1⟩, ⟨0, 0, 0⟩⟩] : List Face) ⟨0, 0, 5⟩
      = .ok (0, 5) := by
    have hm : listMin (([⟨⟨0, 0, 1⟩, ⟨0, 0, 0⟩⟩] : List Face).map
        (fun f => planeDistance f ⟨0, 0, 5⟩))
        = some (planeDistance ⟨⟨0, 0, 1⟩, ⟨0, 0, 0⟩⟩ ⟨0, 0, 5⟩) := rfl
    rw [findNearestFace_eq_ok _ _ (by norm_num) _ hm]
    simp [firstIndexOf, hpd]
  have h := claim_C2 ⟨[⟨⟨0, 0, 1⟩, ⟨0, 0, 0⟩⟩], ⟨1, 0, 0⟩⟩ ⟨0, 0, 5⟩ 0 20 0 5 hfind
  exact ⟨hfind, h.1, h.2⟩

/-- C9: when the nearest-face search fails with the "too complex" error,
`snap_by_point` swallows the error, resets the cached polyhedron to the
empty one, keeps the last known normal unchanged, and returns the
unsnapped frame built from that normal and the raw input point. -/
theorem claim_C9 (s : SnapState) (inputPnt : Vec3) (rotation tolerance : ℝ)
    (hfind : findNearestFace s.polyhedron inputPnt = .error .tooComplex) :
    snapByPoint s inputPnt rotation tolerance
      = (calcPlacementMatrix s.normalVec inputPnt rotation, ⟨[], s.normalVec⟩)
    ∧ (snapByPoint s inputPnt rotation tolerance).1.t = inputPnt := by
  have h := snapByPoint_eq_err s inputPnt rotation tolerance _ hfind
  exact ⟨h, by rw [h]; exact calcPlacementMatrix_t _ _ _⟩

/-- Witness for C9 on a concrete polyhedron with 16385 faces. -/
theorem claim_C9_witness :
    findNearestFace
        (SnapState.mk (List.replicate 16385 defaultFace) ⟨0, 0, 1⟩).polyhedron
        ⟨0, 0, 0⟩ = .error .tooComplex
    ∧ (snapByPoint ⟨List.replicate 16385 defaultFace, ⟨0, 0, 1⟩⟩ ⟨0, 0, 0⟩ 0 20
        = (calcPlacementMatrix ⟨0, 0, 1⟩ ⟨0, 0, 0⟩ 0, ⟨[], ⟨0, 0, 1⟩⟩))
    ∧ (snapByPoint ⟨List.replicate 16385 defaultFace, ⟨0, 0, 1⟩⟩
        ⟨0, 0, 0⟩ 0 20).1.t = ⟨0, 0, 0⟩ := by
  have hfind : findNearestFace (List.replicate 16385 defaultFace) ⟨0, 0, 0⟩
      = .error .tooComplex := by
    rw [findNearestFace, if_pos]
    rw [List.length_replicate]
    norm_num
  have h := claim_C9 ⟨List.replicate 16385 defaultFace, ⟨0, 0, 1⟩⟩ ⟨0, 0, 0⟩ 0 20 hfind
  exact ⟨hfind, h.1, h.2⟩

/-- C10: on the initial state, whose cached polyhedron is the empty
`Polyhedron3D()` with zero faces, the nearest-face search is still
attempted; it fails with the `ValueError` coming from `min([])`
(`emptyDistances`), `snap_by_point` catches it, resets the cached
polyhedron to the empty one, keeps the stored normal, and returns the
frame built from that normal and the raw input point - no exception
escapes. -/
theorem claim_C10 (nv inputPnt : Vec3) (rotation tolerance : ℝ) :
    findNearestFace (SnapState.mk [] nv).polyhedron inputPnt
      = .error .emptyDistances
    ∧ snapByPoint ⟨[], nv⟩ inputPnt rotation tolerance
      = (calcPlacementMatrix nv inputPnt rotation, ⟨[], nv⟩)
    ∧ (snapByPoint ⟨[], nv⟩ inputPnt rotation tolerance).1.t = inputPnt := by
  have herr : findNearestFace ([] : List Face) inputPnt = .error .emptyDistances :=
    findNearestFace_eq_err [] inputPnt (by norm_num) rfl
  have h := snapByPoint_eq_err ⟨[], nv⟩ inputPnt rotation tolerance _ herr
  exact ⟨herr, h, by rw [h]; exact calcPlacementMatrix_t _ _ _⟩

/-- C3: in ray mode, on a hit the stored normal is replaced by the hit
face's normal and the returned frame's translation is exactly the hit
point; on a miss (no face hit, or no element detected at all) the returned
frame is built from the previously stored normal, which is left unchanged,
and its translation is the raw input point. -/
theorem claim_C3 (s : SnapState) (inputPnt : Vec3) (rotation : ℝ)
    (faceNv intersectionPnt : Vec3) (anyHit : Option (Vec3 × Vec3)) :
    (snapByRay s inputPnt rotation true (some (faceNv, intersectionPnt))
        = (calcPlacementMatrix faceNv intersectionPnt rotation,
           ⟨s.polyhedron, faceNv⟩)
      ∧ (snapByRay s inputPnt rotation true
          (some (faceNv, intersectionPnt))).1.t = intersectionPnt)
    ∧ (snapByRay s inputPnt rotation true none
        = (calcPlacementMatrix s.normalVec inputPnt rotation, s)
      ∧ (snapByRay s inputPnt rotation true none).1.t = inputPnt)
    ∧ snapByRay s inputPnt rotation false anyHit
        = (calcPlacementMatrix s.normalVec inputPnt rotation, s) := by
  refine ⟨⟨?_, ?_⟩, ⟨?_, ?_⟩, ?_⟩ <;>
    simp [snapByRay, calcPlacementMatrix_t]

/-- C7: with a wall-tier host element, `create_opening_in_wall` fails with
the "not vertical" error exactly when the Z component of the image of
local +Z under the placement matrix is at least the tolerance 1e-11 in
absolute value; within the tolerance no such error is raised. -/
theorem claim_C7 (m : Matrix3D) (width depth height : ℝ) :
    createOpeningInWall true m width depth height = .error .notVertical
      ↔ 1 / 10 ^ 11 ≤ |(vecMul ⟨0, 0, 1⟩ m).z| := by
  by_cases hv : cmpEqual (vecMul ⟨0, 0, 1⟩ m).z 0 (1 / 10 ^ 11)
  · constructor
    · intro h
      simp only [createOpeningInWall] at h
      rw [if_neg (by norm_num)] at h
      rw [if_neg (not_not_intro hv)] at h
      simp at h
    · intro h
      exfalso
      rw [cmpEqual, sub_zero] at hv
      linarith
  · constructor
    · intro _
      rw [cmpEqual, sub_zero, not_lt] at hv
      exact hv
    · intro _
      simp only [createOpeningInWall]
      rw [if_neg (by norm_num), if_pos hv]

/-- C8: for a vertical placement matrix (the local-+Z world image has a
zero Z component and, per the rigid-transform invariant, is a unit
vector), the opening footprint runs from
`translation_2D - orthogonal * width/2` to
`translation_2D + orthogonal * width/2` along the 90-degree rotation of
the 2D-projected local-Z image: the segment has length `width`, is
centered on the 2D-projected translation, and the bottom and top offsets
are the translation's Z minus and plus `height/2`. -/
theorem claim_C8 (m : Matrix3D) (width depth height : ℝ)
    (hz : (vecMul ⟨0, 0, 1⟩ m).z = 0)
    (hunit : dot3 (vecMul ⟨0, 0, 1⟩ m) (vecMul ⟨0, 0, 1⟩ m) = 1) :
    ∃ o : GeneralOpening,
      createOpeningInWall true m width depth height = .ok o
      ∧ o.startPoint
          = to2D m.t - (width / 2) • (to2D (vecMul ⟨0, 0, 1⟩ m)).orthogonal
      ∧ o.endPoint
          = to2D m.t + (width / 2) • (to2D (vecMul ⟨0, 0, 1⟩ m)).orthogonal
      ∧ o.endPoint - o.startPoint
          = width • (to2D (vecMul ⟨0, 0, 1⟩ m)).orthogonal
      ∧ o.startPoint + o.endPoint = (2 : ℝ) • to2D m.t
      ∧ dot2 (o.endPoint - o.startPoint) (o.endPoint - o.startPoint)
          = width ^ 2
      ∧ o.depth = depth
      ∧ o.bottomOffset = m.t.z - height / 2
      ∧ o.topOffset = m.t.z + height / 2 := by
  set nv := vecMul ⟨0, 0, 1⟩ m with hnv
  have hv : cmpEqual nv.z 0 (1 / 10 ^ 11) := by
    rw [cmpEqual, hz, sub_zero, abs_zero]
    norm_num
  have hxy : nv.x * nv.x + nv.y * nv.y = 1 := by
    have h := hunit
    simp only [dot3, hz] at h
    linarith
  have hopen : createOpeningInWall true m width depth height
      = .ok { startPoint := to2D m.t - (width / 2) • (to2D nv).orthogonal
              endPoint := to2D m.t + (width / 2) • (to2D nv).orthogonal
              depth := depth
              bottomOffset := m.t.z - height / 2
              topOffset := m.t.z + height / 2 } := by
    simp only [createOpeningInWall, ← hnv]
    rw [if_neg (by norm_num), if_neg (not_not_intro hv)]
  refine ⟨_, hopen, rfl, rfl, ?_, ?_, ?_, rfl, rfl, rfl⟩
  · refine Vec2.ext ?_ ?_ <;> simp [Vec2.orthogonal, to2D] <;> ring
  · refine Vec2.ext ?_ ?_ <;> simp [Vec2.orthogonal, to2D] <;> ring
  · simp only [dot2, Vec2.sub_x2, Vec2.sub_y2, Vec2.add_x2, Vec2.add_y2,
      Vec2.smul_x2, Vec2.smul_y2, Vec2.orthogonal, to2D]
    ring_nf
    linear_combination (width ^ 2) * hxy

/-- Witness for C8 on a concrete vertical placement matrix with local-Z
image `(1,0,0)` and translation `(2,3,4)`. -/
theorem claim_C8_witness :
    (vecMul ⟨0, 0, 1⟩ (Matrix3D.mk ⟨0, 1, 0⟩ ⟨0, 0, 1⟩ ⟨1, 0, 0⟩ ⟨2, 3, 4⟩)).z = 0
    ∧ dot3 (vecMul ⟨0, 0, 1⟩ (Matrix3D.mk ⟨0, 1, 0⟩ ⟨0, 0, 1⟩ ⟨1, 0, 0⟩ ⟨2, 3, 4⟩))
        (vecMul ⟨0, 0, 1⟩ (Matrix3D.mk ⟨0, 1, 0⟩ ⟨0, 0, 1⟩ ⟨1, 0, 0⟩ ⟨2, 3, 4⟩)) = 1
    ∧ ∃ o : GeneralOpening,
        createOpeningInWall true
          (Matrix3D.mk ⟨0, 1, 0⟩ ⟨0, 0, 1⟩ ⟨1, 0, 0⟩ ⟨2, 3, 4⟩) 5 6 7 = .ok o
        ∧ o.startPoint
            = to2D (Matrix3D.mk ⟨0, 1, 0⟩ ⟨0, 0, 1⟩ ⟨1, 0, 0⟩ ⟨2, 3, 4⟩).t
              - ((5 : ℝ) / 2) • (to2D (vecMul ⟨0, 0, 1⟩
                  (Matrix3D.mk ⟨0, 1, 0⟩ ⟨0, 0, 1⟩ ⟨1, 0, 0⟩ ⟨2, 3, 4⟩))).orthogonal
        ∧ o.endPoint
            = to2D (Matrix3D.mk ⟨0, 1, 0⟩ ⟨0, 0, 1⟩ ⟨1, 0, 0⟩ ⟨2, 3, 4⟩).t
              + ((5 : ℝ) / 2) • (to2D (vecMul ⟨0, 0, 1⟩
                  (Matrix3D.mk ⟨0, 1, 0⟩ ⟨0, 0, 1⟩ ⟨1, 0, 0⟩ ⟨2, 3, 4⟩))).orthogonal
        ∧ o.endPoint - o.startPoint
            = (5 : ℝ) • (to2D (vecMul ⟨0, 0, 1⟩
                (Matrix3D.mk ⟨0, 1, 0⟩ ⟨0, 0, 1⟩ ⟨1, 0, 0⟩ ⟨2, 3, 4⟩))).orthogonal
        ∧ o.startPoint + o.endPoint
            = (2 : ℝ) • to2D (Matrix3D.mk ⟨0, 1, 0⟩ ⟨0, 0, 1⟩ ⟨1, 0, 0⟩ ⟨2, 3, 4⟩).t
        ∧ dot2 (o.endPoint - o.startPoint) (o.endPoint - o.startPoint) = (5 : ℝ) ^ 2
        ∧ o.depth = 6
        ∧ o.bottomOffset = (4 : ℝ) - 7 / 2
        ∧ o.topOffset = (4 : ℝ) + 7 / 2 := by
  have hz : (vecMul ⟨0, 0, 1⟩ (Matrix3D.mk ⟨0, 1, 0⟩ ⟨0, 0, 1⟩ ⟨1, 0, 0⟩ ⟨2, 3, 4⟩)).z
      = 0 := by
    simp [vecMul]
  have hunit : dot3 (vecMul ⟨0, 0, 1⟩ (Matrix3D.mk ⟨0, 1, 0⟩ ⟨0, 0, 1⟩ ⟨1, 0, 0⟩ ⟨2, 3, 4⟩))
      (vecMul ⟨0, 0, 1⟩ (Matrix3D.mk ⟨0, 1, 0⟩ ⟨0, 0, 1⟩ ⟨1, 0, 0⟩ ⟨2, 3, 4⟩)) = 1 := by
    norm_num [vecMul, dot3]
  exact ⟨hz, hunit,
    claim_C8 (Matrix3D.mk ⟨0, 1, 0⟩ ⟨0, 0, 1⟩ ⟨1, 0, 0⟩ ⟨2, 3, 4⟩) 5 6 7 hz hunit⟩
